import Mathlib

/-!
Shallow embedding of `src/telegram_bot.py` (IITM-TG-BOT), a Telegram menu bot
serving archived exam papers out of one SQLite table
`papers(id, level, subject, year, file_id, file_name, uploaded_by, uploaded_at,
UNIQUE(level, subject, year))`.

Embedding conventions:
* the `papers` table is a `List PaperRec` in rowid order;
* `INSERT OR REPLACE` deletes any row that violates the UNIQUE(level, subject,
  year) constraint and appends the fresh row (it gets a fresh autoincrement
  rowid, hence goes last);
* `SELECT ... fetchone()` without ORDER BY scans in rowid order, i.e. `find?`;
* `SELECT DISTINCT c ... ORDER BY c` is the deduplicated column sorted
  ascending by SQLite's BINARY collation, which on UTF-8 text coincides with
  `String`'s lexicographic order; `ORDER BY c DESC` is its reverse;
* storage faults are made explicit as boolean fault flags on the two mutating
  operations (`connectFault` for `sqlite3.connect`, `writeFault` for the
  execute/commit step); a Python exception escaping the handler is
  `Except.error ()`, a normal return is `Except.ok`;
* the two `ConversationHandler`s become explicit step functions on per-user
  conversation state; an update that no handler of the current state matches
  leaves the state unchanged and produces the `silent` output.
-/

/-- One row of the `papers` table (the columns the handlers read and write;
`id` is represented by list position, `uploaded_at` is never read). -/
structure PaperRec where
  level : String
  subject : String
  year : String
  file_id : String
  file_name : String
  uploaded_by : Int
deriving Repr, DecidableEq

/-- The `papers` table, rows in rowid order. -/
abbrev Store := List PaperRec

/-- The row filter `WHERE level = ? AND subject = ? AND year = ?`. -/
def keyMatches (r : PaperRec) (l s y : String) : Bool :=
  r.level == l && r.subject == s && r.year == y

/-- `ADMIN_IDS = [7576725871]`. -/
def ADMIN_IDS : List Int := [7576725871]

/-- `is_admin(user_id)`: `user_id in ADMIN_IDS`. -/
def is_admin (user_id : Int) : Bool :=
  ADMIN_IDS.contains user_id

/-- `init_db()`: `CREATE TABLE IF NOT EXISTS papers (...)` — a fresh, empty
table. Its `UNIQUE(level, subject, year)` constraint is the `UniqueKeys`
invariant below. -/
def init_db : Store := []

/-- `get_subjects(level)`: `SELECT DISTINCT subject FROM papers WHERE
level = ? ORDER BY subject`. -/
def get_subjects (db : Store) (level : String) : List String :=
  (((db.filter (fun r => r.level == level)).map (fun r => r.subject)).dedup).insertionSort (· ≤ ·)

/-- `get_years(level, subject)`: `SELECT DISTINCT year FROM papers WHERE
level = ? AND subject = ? ORDER BY year DESC` — descending, i.e. the reverse
of the ascending sort. -/
def get_years (db : Store) (level subject : String) : List String :=
  ((((db.filter (fun r => r.level == level && r.subject == subject)).map
      (fun r => r.year)).dedup).insertionSort (· ≤ ·)).reverse

/-- `get_paper(level, subject, year)`: `SELECT file_id, file_name FROM papers
WHERE level = ? AND subject = ? AND year = ?` with `fetchone()`: the first
matching row in rowid order, or `None`. -/
def get_paper (db : Store) (l s y : String) : Option (String × String) :=
  (db.find? (fun r => keyMatches r l s y)).map (fun r => (r.file_id, r.file_name))

/-- The effect of `INSERT OR REPLACE INTO papers (level, subject, year,
file_id, file_name, uploaded_by) VALUES (...)` on the table: the row
conflicting on `UNIQUE(level, subject, year)` (if any) is deleted and the
fresh row is appended with a fresh rowid. -/
def insertOrReplace (db : Store) (r : PaperRec) : Store :=
  db.filter (fun q => !(keyMatches q r.level r.subject r.year)) ++ [r]

/-- `add_paper(level, subject, year, file_id, file_name, user_id)`.
`sqlite3.connect` runs outside the `try`, so a fault there escapes as an
exception; the execute/commit step runs inside `try/except`, so a fault there
is logged and reported as `success = False` with the transaction rolled back
on close (no partial write). -/
def add_paper (connectFault writeFault : Bool) (db : Store)
    (level subject year file_id file_name : String) (user_id : Int) :
    Except Unit (Store × Bool) :=
  if connectFault then Except.error ()
  else if writeFault then Except.ok (db, false)
  else Except.ok (insertOrReplace db ⟨level, subject, year, file_id, file_name, user_id⟩, true)

/-- `delete_paper(level, subject, year)`: `DELETE FROM papers WHERE level = ?
AND subject = ? AND year = ?`, returning `rowcount > 0`. No `try/except`
anywhere in the function: a fault at either the connect or the
execute/commit step escapes as an exception. -/
def delete_paper (connectFault writeFault : Bool) (db : Store)
    (l s y : String) : Except Unit (Store × Bool) :=
  if connectFault || writeFault then Except.error ()
  else Except.ok (db.filter (fun r => !(keyMatches r l s y)),
                  db.any (fun r => keyMatches r l s y))

/-- A mutating store operation (the two write paths of the program). -/
inductive StoreOp
  | add (l s y file_id file_name : String) (uid : Int)
  | del (l s y : String)
deriving Repr, DecidableEq

/-- Apply one (non-faulting) store operation. -/
def applyOp (db : Store) (op : StoreOp) : Store :=
  match op with
  | .add l s y f n u => insertOrReplace db ⟨l, s, y, f, n, u⟩
  | .del l s y => db.filter (fun r => !(keyMatches r l s y))

/-- Apply a sequence of store operations, oldest first. -/
def applyOps (db : Store) : List StoreOp → Store
  | [] => db
  | op :: ops => applyOps (applyOp db op) ops

/-- Whether an operation addresses the triple `(l, s, y)`. -/
def opTouches : StoreOp → String → String → String → Bool
  | .add l' s' y' _ _ _, l, s, y => l' == l && s' == s && y' == y
  | .del l' s' y', l, s, y => l' == l && s' == s && y' == y

/-- Whether an operation is an insert of the triple `(l, s, y)`. -/
def isAddOf : StoreOp → String → String → String → Bool
  | .add l' s' y' _ _ _, l, s, y => l' == l && s' == s && y' == y
  | .del _ _ _, _, _, _ => false

/-- Two rows agree on the `UNIQUE(level, subject, year)` key. -/
def sameKey (r q : PaperRec) : Bool :=
  r.level == q.level && r.subject == q.subject && r.year == q.year

/-- The `UNIQUE(level, subject, year)` table constraint: no two rows share a
key. -/
def UniqueKeys (db : Store) : Prop :=
  db.Pairwise (fun r q => sameKey r q = false)

/-! ## Browse flow (user `ConversationHandler`)

States `LEVEL`, `SUBJECT`, `YEAR` all bind a bare `CallbackQueryHandler`, so
the events that drive the flow are callback-choice tokens; `done` stands for
`ConversationHandler.END`. `context.user_data` contributes the keys `level`
and `subject`, absent keys modelled as `""` (each is only read after the
earlier stage wrote it). -/

/-- Browse flow position: the `LEVEL`/`SUBJECT`/`YEAR` conversation states
plus `done` for `ConversationHandler.END`. -/
inductive BrowseState
  | level
  | subject
  | year
  | done
deriving Repr, DecidableEq

/-- Per-user browse conversation state: position plus `user_data`. -/
structure BrowseCtx where
  state : BrowseState
  level : String := ""
  subject : String := ""
deriving Repr, DecidableEq

/-- Observable outcome of one browse transition (presentation text is
abstracted away; a menu is its ordered list of callback tokens). -/
inductive BrowseOut
  | menu (choices : List String)
  | unavailableLevel
  | sendDocument (file_id : String)
  | notFound
  | silent
deriving Repr, DecidableEq

/-- One browse transition on callback-choice token `d`: the bodies of
`select_level`, `select_subject` and `select_year`. -/
def browse_step (db : Store) (c : BrowseCtx) (d : String) : BrowseCtx × BrowseOut :=
  match c.state with
  | .level =>
      let c' := { c with level := d }
      let subjects := get_subjects db d
      if subjects.isEmpty then
        ({ c' with state := .done }, .unavailableLevel)
      else
        ({ c' with state := .subject }, .menu (subjects ++ ["back_to_level"]))
  | .subject =>
      if d == "back_to_level" then
        ({ c with state := .level }, .menu ["foundation", "diploma", "degree"])
      else
        let years := get_years db c.level d
        ({ c with state := .year, subject := d }, .menu (years ++ ["back_to_subject"]))
  | .year =>
      if d == "back_to_subject" then
        ({ c with state := .subject }, .menu (get_subjects db c.level ++ ["back_to_level"]))
      else
        match get_paper db c.level c.subject d with
        | some (file_id, _) => ({ c with state := .done }, .sendDocument file_id)
        | none => ({ c with state := .done }, .notFound)
  | .done => (c, .silent)

/-! ## Admin flow (admin `ConversationHandler`)

One handler holds both the upload and the delete flow; its states are
`ADMIN_ACTION`, `ADMIN_LEVEL`, `ADMIN_SUBJECT`, `ADMIN_YEAR`, `ADMIN_FILE`,
`DELETE_LEVEL`, `DELETE_SUBJECT`, `DELETE_YEAR`; `idle` stands for "no active
conversation" and for `ConversationHandler.END`. Dispatch facts embedded in
`admin_step`:
* the only entry point is `CommandHandler("admin", admin_panel)`, and entry
  points are not re-checked while a conversation is active (no reentry);
* `ADMIN_SUBJECT`/`ADMIN_YEAR` bind `MessageHandler(filters.TEXT &
  ~filters.COMMAND, ...)`: only non-command text messages are dispatched;
* `ADMIN_FILE` binds `MessageHandler(filters.Document.PDF |
  filters.Document.ALL, admin_get_file)`: only messages carrying a document
  are dispatched, so `admin_get_file`'s internal non-document branch is
  unreachable through this table;
* the fallback `CommandHandler("cancel", cancel)` applies in every active
  state;
* an update matched by no handler of the current state and no fallback leaves
  the conversation state unchanged and sends nothing (`silent`). -/

/-- Admin conversation position. -/
inductive AdminState
  | idle
  | action
  | aLevel
  | aSubject
  | aYear
  | aFile
  | dLevel
  | dSubject
  | dYear
deriving Repr, DecidableEq

/-- Per-user admin conversation state: position plus the `user_data` keys
`admin_action`, `admin_level`, `admin_subject`, `admin_year`, `delete_level`,
`delete_subject` (absent keys modelled as `""`). -/
structure AdminCtx where
  state : AdminState
  admin_action : String := ""
  admin_level : String := ""
  admin_subject : String := ""
  admin_year : String := ""
  delete_level : String := ""
  delete_subject : String := ""
deriving Repr, DecidableEq

/-- An incoming update for the admin conversation, as the engine sees it. -/
inductive Event
  | cmdAdmin (uid : Int)
  | cmdCancel
  | choice (data : String)
  | text (s : String)
  | doc (file_id file_name : String) (uid : Int)
deriving Repr, DecidableEq

/-- Observable outcome of one admin transition (texts abstracted; the two
delete menus keep their ordered token lists). -/
inductive AdminOut
  | notAuthorized
  | panelMenu
  | closed
  | cancelledOp
  | cancelledConv
  | uploadLevelMenu
  | deleteLevelMenu
  | askSubject
  | askYear
  | askFile
  | repromptFile
  | uploadOk
  | noPapers
  | deleteSubjectMenu (subjects : List String)
  | deleteYearMenu (years : List String)
  | deleteOk
  | deleteErr
  | silent
deriving Repr, DecidableEq

/-- `admin_panel`: the `/admin` entry point, gated by `is_admin`. -/
def admin_panel (uid : Int) (c : AdminCtx) : AdminCtx × AdminOut :=
  if !(is_admin uid) then ({ c with state := .idle }, .notAuthorized)
  else ({ c with state := .action }, .panelMenu)

/-- `admin_action`: cancel closes the panel; otherwise the choice is stored in
`user_data["admin_action"]` and upload/delete branch to their level menus; any
other token falls through both branches (the Python function returns `None`,
which keeps the current conversation state). -/
def admin_action (d : String) (c : AdminCtx) : AdminCtx × AdminOut :=
  if d == "admin_cancel" then ({ c with state := .idle }, .closed)
  else
    let c' := { c with admin_action := d }
    if d == "admin_upload" then ({ c' with state := .aLevel }, .uploadLevelMenu)
    else if d == "admin_delete" then ({ c' with state := .dLevel }, .deleteLevelMenu)
    else (c', .silent)

/-- `admin_select_level`: stores the callback token verbatim in
`user_data["admin_level"]` (no case normalization) and asks for the subject. -/
def admin_select_level (d : String) (c : AdminCtx) : AdminCtx × AdminOut :=
  if d == "admin_cancel" then ({ c with state := .idle }, .cancelledOp)
  else ({ c with state := .aSubject, admin_level := d }, .askSubject)

/-- Python's `str.strip()`: drop leading and trailing whitespace characters
(for the ASCII whitespace relevant here, `Char.isWhitespace` agrees with
Python's notion). -/
def pyStrip (s : String) : String :=
  ⟨((s.data.dropWhile Char.isWhitespace).reverse.dropWhile Char.isWhitespace).reverse⟩

/-- `admin_get_subject`: `update.message.text.strip()` stored in
`user_data["admin_subject"]`; no further validation. -/
def admin_get_subject (s : String) (c : AdminCtx) : AdminCtx × AdminOut :=
  ({ c with state := .aYear, admin_subject := pyStrip s }, .askYear)

/-- `admin_get_year`: `update.message.text.strip()` stored in
`user_data["admin_year"]`; no further validation. -/
def admin_get_year (s : String) (c : AdminCtx) : AdminCtx × AdminOut :=
  ({ c with state := .aFile, admin_year := pyStrip s }, .askFile)

/-- `admin_get_file`: on a non-document message it re-prompts and stays in
`ADMIN_FILE`; on a document it calls `add_paper` with the accumulated
selections and ends the conversation. The machine runs the fault-free store
path (`add_paper false false`, hence `success = True`); faults are treated at
the store level. -/
def admin_get_file (d : Option (String × String)) (uid : Int) (c : AdminCtx)
    (db : Store) : AdminCtx × Store × AdminOut :=
  match d with
  | none => ({ c with state := .aFile }, db, .repromptFile)
  | some (file_id, file_name) =>
      (({ c with state := .idle },
        insertOrReplace db ⟨c.admin_level, c.admin_subject, c.admin_year, file_id, file_name, uid⟩,
        .uploadOk))

/-- `delete_select_level`: empty subject list terminates with "no papers
found"; otherwise the subject menu is shown. -/
def delete_select_level (d : String) (c : AdminCtx) (db : Store) : AdminCtx × AdminOut :=
  if d == "admin_cancel" then ({ c with state := .idle }, .cancelledOp)
  else
    let c' := { c with delete_level := d }
    let subjects := get_subjects db d
    if subjects.isEmpty then ({ c' with state := .idle }, .noPapers)
    else ({ c' with state := .dSubject }, .deleteSubjectMenu subjects)

/-- `delete_select_subject`: stores the subject and shows the year menu (no
empty check — an empty year list still yields a menu). -/
def delete_select_subject (d : String) (c : AdminCtx) (db : Store) : AdminCtx × AdminOut :=
  if d == "admin_cancel" then ({ c with state := .idle }, .cancelledOp)
  else
    ({ c with state := .dYear, delete_subject := d },
     .deleteYearMenu (get_years db c.delete_level d))

/-- `delete_select_year`: calls `delete_paper` (fault-free path) and reports
the boolean result. -/
def delete_select_year (d : String) (c : AdminCtx) (db : Store) :
    AdminCtx × Store × AdminOut :=
  if d == "admin_cancel" then ({ c with state := .idle }, db, .cancelledOp)
  else
    let deleted := db.any (fun r => keyMatches r c.delete_level c.delete_subject d)
    (({ c with state := .idle },
      db.filter (fun r => !(keyMatches r c.delete_level c.delete_subject d)),
      if deleted then .deleteOk else .deleteErr))

/-- One dispatch step of the admin `ConversationHandler` (see the dispatch
facts above). -/
def admin_step (c : AdminCtx) (db : Store) (ev : Event) : AdminCtx × Store × AdminOut :=
  match c.state, ev with
  | .idle, .cmdAdmin uid =>
      let r := admin_panel uid c
      (r.1, db, r.2)
  | .idle, _ => (c, db, .silent)
  | _, .cmdCancel => ({ c with state := .idle }, db, .cancelledConv)
  | .action, .choice d =>
      let r := admin_action d c
      (r.1, db, r.2)
  | .aLevel, .choice d =>
      let r := admin_select_level d c
      (r.1, db, r.2)
  | .aSubject, .text s =>
      let r := admin_get_subject s c
      (r.1, db, r.2)
  | .aYear, .text s =>
      let r := admin_get_year s c
      (r.1, db, r.2)
  | .aFile, .doc file_id file_name uid => admin_get_file (some (file_id, file_name)) uid c db
  | .dLevel, .choice d =>
      let r := delete_select_level d c db
      (r.1, db, r.2)
  | .dSubject, .choice d =>
      let r := delete_select_subject d c db
      (r.1, db, r.2)
  | .dYear, .choice d => delete_select_year d c db
  | _, _ => (c, db, .silent)

/-- Run the admin machine over a list of updates, oldest first. -/
def admin_run (c : AdminCtx) (db : Store) : List Event → AdminCtx × Store
  | [] => (c, db)
  | ev :: evs =>
      let r := admin_step c db ev
      admin_run r.1 r.2.1 evs

/-- A user with no active conversation and empty `user_data`. -/
def emptyCtx : AdminCtx := { state := .idle }

instance decidableUniqueKeys (db : Store) : Decidable (UniqueKeys db) := by
  unfold UniqueKeys
  infer_instance

/-! ## Store lemmas -/

theorem keyMatches_eq_true {r : PaperRec} {l s y : String} :
    keyMatches r l s y = true ↔ r.level = l ∧ r.subject = s ∧ r.year = y := by
  simp [keyMatches, and_assoc]

theorem keyMatches_self (r : PaperRec) : keyMatches r r.level r.subject r.year = true := by
  simp [keyMatches]

theorem find?_append_of_none {α : Type} {xs : List α} (ys : List α) {q : α → Bool}
    (h : xs.find? q = none) : (xs ++ ys).find? q = ys.find? q := by
  induction xs with
  | nil => rfl
  | cons x xs ih =>
    cases hx : q x with
    | false =>
        simp only [List.find?, hx] at h
        simpa only [List.cons_append, List.find?, hx] using ih h
    | true => simp [List.find?, hx] at h

theorem find?_append_singleton {α : Type} (xs : List α) (r : α) (q : α → Bool)
    (h : q r = false) : (xs ++ [r]).find? q = xs.find? q := by
  induction xs with
  | nil => simp [List.find?, h]
  | cons x xs ih =>
    cases hx : q x <;> simp [List.find?, hx, ih]

theorem find?_filter_superset {α : Type} (xs : List α) (p q : α → Bool)
    (h : ∀ a, q a = true → p a = true) : (xs.filter p).find? q = xs.find? q := by
  induction xs with
  | nil => rfl
  | cons x xs ih =>
    cases hq : q x with
    | true =>
        have hp := h x hq
        simp [List.filter_cons, hp, List.find?, hq]
    | false =>
        cases hp : p x <;> simp [List.filter_cons, hp, List.find?, hq, ih]

/-- After `INSERT OR REPLACE` of row `r`, the point lookup on `r`'s triple
returns `r`'s file reference. -/
theorem get_paper_insertOrReplace (db : Store) (r : PaperRec) :
    get_paper (insertOrReplace db r) r.level r.subject r.year =
      some (r.file_id, r.file_name) := by
  have hnone : (db.filter (fun q => !(keyMatches q r.level r.subject r.year))).find?
      (fun q => keyMatches q r.level r.subject r.year) = none := by
    refine List.find?_eq_none.mpr (fun a ha => ?_)
    have := List.of_mem_filter ha
    simp_all
  unfold get_paper insertOrReplace
  rw [find?_append_of_none _ hnone]
  simp [List.find?, keyMatches_self]

/-- A store operation that does not address `(l, s, y)` leaves the point
lookup on `(l, s, y)` unchanged. -/
theorem get_paper_applyOp_frame (db : Store) (op : StoreOp) (l s y : String)
    (h : opTouches op l s y = false) :
    get_paper (applyOp db op) l s y = get_paper db l s y := by
  cases op with
  | add l' s' y' f n u =>
      have hkey : (l' = l ∧ s' = s ∧ y' = y) → False := by
        intro ⟨h1, h2, h3⟩
        simp [opTouches, h1, h2, h3] at h
      unfold applyOp insertOrReplace get_paper
      rw [find?_append_singleton]
      · rw [find?_filter_superset]
        intro a ha
        rw [keyMatches_eq_true] at ha
        simp only [Bool.not_eq_true']
        rw [show (keyMatches a l' s' y' = false) ↔ ¬(keyMatches a l' s' y' = true) by simp]
        rw [keyMatches_eq_true]
        intro ⟨h1, h2, h3⟩
        exact hkey ⟨by rw [← h1, ha.1], by rw [← h2, ha.2.1], by rw [← h3, ha.2.2]⟩
      · rw [show (keyMatches ⟨l', s', y', f, n, u⟩ l s y = false) ↔
            ¬(keyMatches ⟨l', s', y', f, n, u⟩ l s y = true) by simp]
        rw [keyMatches_eq_true]
        exact fun hc => hkey hc
  | del l' s' y' =>
      have hkey : (l' = l ∧ s' = s ∧ y' = y) → False := by
        intro ⟨h1, h2, h3⟩
        simp [opTouches, h1, h2, h3] at h
      unfold applyOp get_paper
      rw [find?_filter_superset]
      intro a ha
      rw [keyMatches_eq_true] at ha
      simp only [Bool.not_eq_true']
      rw [show (keyMatches a l' s' y' = false) ↔ ¬(keyMatches a l' s' y' = true) by simp]
      rw [keyMatches_eq_true]
      intro ⟨h1, h2, h3⟩
      exact hkey ⟨by rw [← h1, ha.1], by rw [← h2, ha.2.1], by rw [← h3, ha.2.2]⟩

/-- A sequence of store operations none of which addresses `(l, s, y)` leaves
the point lookup on `(l, s, y)` unchanged. -/
theorem get_paper_applyOps_frame (db : Store) (ops : List StoreOp) (l s y : String)
    (h : ∀ op ∈ ops, opTouches op l s y = false) :
    get_paper (applyOps db ops) l s y = get_paper db l s y := by
  induction ops generalizing db with
  | nil => rfl
  | cons op ops ih =>
      rw [applyOps, ih _ (fun o ho => h o (List.mem_cons_of_mem _ ho)),
        get_paper_applyOp_frame db op l s y (h op (List.mem_cons_self _ _))]

/-- Under the UNIQUE constraint at most one row matches a triple. -/
theorem countP_key_le_one (db : Store) (l s y : String) (h : UniqueKeys db) :
    db.countP (fun r => keyMatches r l s y) ≤ 1 := by
  induction db with
  | nil => simp
  | cons r rs ih =>
      rw [UniqueKeys, List.pairwise_cons] at h
      rcases h with ⟨hr, hrs⟩
      cases hq : keyMatches r l s y with
      | false =>
          rw [List.countP_cons_of_neg _ _ (by simp [hq])]
          exact ih hrs
      | true =>
          rw [List.countP_cons_of_pos _ _ (by simp [hq])]
          have hz : rs.countP (fun q => keyMatches q l s y) = 0 := by
            rw [List.countP_eq_zero]
            intro q hmem hq'
            have hque : keyMatches q l s y = true := hq'
            rw [keyMatches_eq_true] at hq hque
            have : sameKey r q = true := by
              simp [sameKey, hq.1, hq.2.1, hq.2.2, hque.1, hque.2.1, hque.2.2]
            rw [hr q hmem] at this
            exact Bool.false_ne_true this
          omega
  
/-- A list is no longer than the matching-row count plus the non-matching
remainder. -/
theorem length_le_countP_add_filter (db : Store) (q : PaperRec → Bool) :
    db.length ≤ db.countP q + (db.filter (fun r => !(q r))).length := by
  induction db with
  | nil => simp
  | cons r rs ih =>
      cases hq : q r <;> simp [List.countP_cons, List.filter_cons, hq] <;> omega

/-- Deleting a triple's rows removes at most one row under the UNIQUE
constraint. -/
theorem delete_length (db : Store) (l s y : String) (h : UniqueKeys db) :
    db.length ≤ (db.filter (fun r => !(keyMatches r l s y))).length + 1 := by
  have h1 := length_le_countP_add_filter db (fun r => keyMatches r l s y)
  have h3 := countP_key_le_one db l s y h
  omega

/-- If no row matches `(l, s, y)` and an operation is not an insert of
`(l, s, y)`, then still no row matches afterwards. -/
theorem any_key_applyOp_false (db : Store) (op : StoreOp) (l s y : String)
    (h : db.any (fun r => keyMatches r l s y) = false)
    (hop : isAddOf op l s y = false) :
    (applyOp db op).any (fun r => keyMatches r l s y) = false := by
  rw [Bool.eq_false_iff] at h ⊢
  intro hc
  apply h
  rw [List.any_eq_true] at hc ⊢
  rcases hc with ⟨r, hr, hkey⟩
  cases op with
  | add l' s' y' f n u =>
      rw [applyOp, insertOrReplace, List.mem_append] at hr
      rcases hr with hr | hr
      · exact ⟨r, List.mem_of_mem_filter hr, hkey⟩
      · rw [List.mem_singleton] at hr
        subst hr
        rw [keyMatches_eq_true] at hkey
        simp only [isAddOf] at hop
        simp only [Bool.and_eq_false_iff, beq_eq_false_iff_ne, ne_eq] at hop
        rcases hop with (hop | hop) | hop
        · exact (hop hkey.1).elim
        · exact (hop hkey.2.1).elim
        · exact (hop hkey.2.2).elim
  | del l' s' y' =>
      exact ⟨r, List.mem_of_mem_filter hr, hkey⟩

/-- Iterated version of `any_key_applyOp_false` over a sequence of operations
that never re-inserts the triple. -/
theorem any_key_applyOps_false (db : Store) (ops : List StoreOp) (l s y : String)
    (h : db.any (fun r => keyMatches r l s y) = false)
    (hops : ∀ op ∈ ops, isAddOf op l s y = false) :
    (applyOps db ops).any (fun r => keyMatches r l s y) = false := by
  induction ops generalizing db with
  | nil => exact h
  | cons op ops ih =>
      rw [applyOps]
      exact ih _ (any_key_applyOp_false db op l s y h (hops op (List.mem_cons_self _ _)))
        (fun o ho => hops o (List.mem_cons_of_mem _ ho))

/-- Filtering preserves the UNIQUE-key invariant. -/
theorem uniqueKeys_filter (db : Store) (p : PaperRec → Bool) (h : UniqueKeys db) :
    UniqueKeys (db.filter p) :=
  h.sublist (List.filter_sublist db)

/-- `INSERT OR REPLACE` preserves the UNIQUE-key invariant. -/
theorem uniqueKeys_insertOrReplace (db : Store) (r : PaperRec) (h : UniqueKeys db) :
    UniqueKeys (insertOrReplace db r) := by
  rw [UniqueKeys, insertOrReplace, List.pairwise_append]
  refine ⟨uniqueKeys_filter db _ h, List.pairwise_singleton _ _, ?_⟩
  intro a ha b hb
  rw [List.mem_singleton] at hb
  subst hb
  have hmem := List.of_mem_filter ha
  rw [Bool.not_eq_true'] at hmem
  exact hmem

/-- Every store write path preserves the UNIQUE-key invariant. -/
theorem uniqueKeys_applyOp (db : Store) (op : StoreOp) (h : UniqueKeys db) :
    UniqueKeys (applyOp db op) := by
  cases op with
  | add l s y f n u => exact uniqueKeys_insertOrReplace db _ h
  | del l s y => exact uniqueKeys_filter db _ h

/-- Re-inserting a triple makes a row with that triple exist again. -/
theorem any_key_insertOrReplace_true (db : Store) (r : PaperRec) :
    (insertOrReplace db r).any (fun q => keyMatches q r.level r.subject r.year) = true := by
  rw [insertOrReplace, List.any_eq_true]
  exact ⟨r, List.mem_append_right _ (List.mem_singleton_self r), keyMatches_self r⟩

/-- C1: a record written by `add_paper` (fault-free path) is what `get_paper`
returns on its triple, and stays so across any sequence of store operations
that does not address that triple; a second `add_paper` on the same triple
fully replaces the first, so `get_paper` returns the new file reference and
never the old one (last-writer-wins). -/
theorem C1_upsert_find_last_writer_wins (db : Store) (l s y f n : String) (u : Int)
    (ops : List StoreOp) (hops : ∀ op ∈ ops, opTouches op l s y = false) :
    add_paper false false db l s y f n u
        = Except.ok (insertOrReplace db ⟨l, s, y, f, n, u⟩, true)
    ∧ get_paper (applyOps (insertOrReplace db ⟨l, s, y, f, n, u⟩) ops) l s y = some (f, n)
    ∧ (∀ f' n' u', get_paper (insertOrReplace (insertOrReplace db ⟨l, s, y, f', n', u'⟩)
          ⟨l, s, y, f, n, u⟩) l s y = some (f, n)) := by
  refine ⟨rfl, ?_, ?_⟩
  · rw [get_paper_applyOps_frame _ ops l s y hops]
    exact get_paper_insertOrReplace db ⟨l, s, y, f, n, u⟩
  · intro f' n' u'
    exact get_paper_insertOrReplace _ ⟨l, s, y, f, n, u⟩

/-- C1 witness: concrete instantiation — after upserting
(foundation, Math, 2024) ↦ ("f", "n") and then upserting an unrelated triple,
the lookup still returns ("f", "n"). -/
theorem C1_witness :
    get_paper (applyOps (insertOrReplace init_db ⟨"foundation", "Math", "2024", "f", "n", 7⟩)
        [StoreOp.add "degree" "Phys" "2023" "g" "m" 5]) "foundation" "Math" "2024"
      = some ("f", "n") :=
  (C1_upsert_find_last_writer_wins init_db "foundation" "Math" "2024" "f" "n" 7
    [StoreOp.add "degree" "Phys" "2023" "g" "m" 5] (by decide)).2.1

/-- C3: `delete_paper` (fault-free path) filters out exactly the rows of the
given triple and returns whether one existed; under the UNIQUE constraint
(which holds of `init_db` and is preserved by every write path) it removes at
most one row; after a delete, every later delete of the triple reports
`False` across any sequence of operations that does not re-insert the triple,
and re-inserting it makes a matching row exist again. -/
theorem C3_delete_semantics (db : Store) (l s y : String) (ops : List StoreOp)
    (hU : UniqueKeys db) (hops : ∀ op ∈ ops, isAddOf op l s y = false) :
    delete_paper false false db l s y
        = Except.ok (db.filter (fun r => !(keyMatches r l s y)),
                     db.any (fun r => keyMatches r l s y))
    ∧ (db.any (fun r => keyMatches r l s y) = true ↔ ∃ r ∈ db, keyMatches r l s y = true)
    ∧ db.length ≤ (db.filter (fun r => !(keyMatches r l s y))).length + 1
    ∧ (applyOps (db.filter (fun r => !(keyMatches r l s y))) ops).any
        (fun r => keyMatches r l s y) = false
    ∧ (∀ f n u, (insertOrReplace (applyOps (db.filter (fun r => !(keyMatches r l s y))) ops)
          ⟨l, s, y, f, n, u⟩).any (fun q => keyMatches q l s y) = true)
    ∧ UniqueKeys init_db
    ∧ (∀ db' op, UniqueKeys db' → UniqueKeys (applyOp db' op)) := by
  have hgone : (db.filter (fun r => !(keyMatches r l s y))).any
      (fun r => keyMatches r l s y) = false := by
    rw [Bool.eq_false_iff]
    intro hc
    rw [List.any_eq_true] at hc
    rcases hc with ⟨r, hr, hkey⟩
    have := List.of_mem_filter hr
    rw [hkey] at this
    simp at this
  refine ⟨rfl, List.any_eq_true, delete_length db l s y hU, ?_, ?_, ?_, ?_⟩
  · exact any_key_applyOps_false _ ops l s y hgone hops
  · intro f n u
    exact any_key_insertOrReplace_true _ ⟨l, s, y, f, n, u⟩
  · exact List.Pairwise.nil
  · exact fun db' op h => uniqueKeys_applyOp db' op h

/-- C3 witness: concrete instantiation — deleting (foundation, Math, 2024)
from the one-row store, then deleting an unrelated triple, leaves no row of
(foundation, Math, 2024), so a repeated delete reports `False`. -/
theorem C3_witness :
    (applyOps (([⟨"foundation", "Math", "2024", "f", "n", 7⟩] : Store).filter
        (fun r => !(keyMatches r "foundation" "Math" "2024")))
        [StoreOp.del "degree" "A" "2020"]).any
      (fun r => keyMatches r "foundation" "Math" "2024") = false :=
  (C3_delete_semantics [⟨"foundation", "Math", "2024", "f", "n", 7⟩]
    "foundation" "Math" "2024" [StoreOp.del "degree" "A" "2020"]
    (by decide) (by decide)).2.2.2.1

/-- C4 counterexample: a storage fault during the delete step makes
`delete_paper` raise (the function has no `try/except`), instead of returning
an operation-failure result — refuting the claim that every storage fault in
upsert or delete is reported as a failure result rather than a crash. -/
theorem C4_counterexample :
    delete_paper false true init_db "foundation" "Math" "2024" = Except.error () := rfl

/-- C4 amended: a fault in the guarded insert/commit step of `add_paper` is
caught and reported as `success = False`, with no partial write, and the flow
terminates; but a fault while opening the connection in `add_paper`, and any
storage fault in `delete_paper` (which has no `try/except`), propagate as
exceptions rather than as failure results. -/
theorem C4_amended_fault_reporting (db : Store) (l s y f n : String) (u : Int)
    (wf : Bool) :
    add_paper false true db l s y f n u = Except.ok (db, false)
    ∧ add_paper false false db l s y f n u
        = Except.ok (insertOrReplace db ⟨l, s, y, f, n, u⟩, true)
    ∧ add_paper true wf db l s y f n u = Except.error ()
    ∧ delete_paper true wf db l s y = Except.error ()
    ∧ delete_paper wf true db l s y = Except.error ()
    ∧ delete_paper false false db l s y
        = Except.ok (db.filter (fun r => !(keyMatches r l s y)),
                     db.any (fun r => keyMatches r l s y)) := by
  refine ⟨rfl, rfl, rfl, rfl, ?_, rfl⟩
  cases wf <;> rfl

/-- Sorting the deduplicated values yields a strictly ascending list. -/
theorem sorted_lt_sort_dedup (xs : List String) :
    (xs.dedup.insertionSort (· ≤ ·)).Sorted (· < ·) :=
  (List.sorted_insertionSort _ _).lt_of_le
    ((List.perm_insertionSort _ _).symm.nodup (List.nodup_dedup xs))

/-- C8: `get_subjects` returns the distinct subjects of the level, strictly
ascending (hence duplicate-free), empty exactly when no record matches; and
`get_years` returns the distinct years of the (level, subject) pair, strictly
descending in the lexicographic string order. -/
theorem C8_index_queries (db : Store) (L S s y : String) :
    (get_subjects db L).Sorted (· < ·)
    ∧ (s ∈ get_subjects db L ↔ ∃ r ∈ db, r.level = L ∧ r.subject = s)
    ∧ (get_subjects db L = [] ↔ ∀ r ∈ db, r.level ≠ L)
    ∧ (get_years db L S).Sorted (· > ·)
    ∧ (y ∈ get_years db L S ↔ ∃ r ∈ db, (r.level = L ∧ r.subject = S) ∧ r.year = y) := by
  have hmem : ∀ t : String, t ∈ get_subjects db L ↔ ∃ r ∈ db, r.level = L ∧ r.subject = t := by
    intro t
    simp only [get_subjects, List.mem_insertionSort, List.mem_dedup, List.mem_map,
      List.mem_filter, beq_iff_eq]
    constructor
    · rintro ⟨r, ⟨hr, hL⟩, ht⟩
      exact ⟨r, hr, hL, ht⟩
    · rintro ⟨r, hr, hL, ht⟩
      exact ⟨r, ⟨hr, hL⟩, ht⟩
  refine ⟨sorted_lt_sort_dedup _, hmem s, ?_, ?_, ?_⟩
  · rw [List.eq_nil_iff_forall_not_mem]
    constructor
    · intro h r hr hL
      exact h r.subject ((hmem r.subject).mpr ⟨r, hr, hL, rfl⟩)
    · rintro h t ht
      rcases (hmem t).mp ht with ⟨r, hr, hL, -⟩
      exact h r hr hL
  · rw [get_years, List.Sorted, List.pairwise_reverse]
    exact sorted_lt_sort_dedup _
  · simp only [get_years, List.mem_reverse, List.mem_insertionSort, List.mem_dedup,
      List.mem_map, List.mem_filter, Bool.and_eq_true, beq_iff_eq]
    constructor
    · rintro ⟨r, ⟨hr, hLS⟩, hy⟩
      exact ⟨r, hr, hLS, hy⟩
    · rintro ⟨r, hr, hLS, hy⟩
      exact ⟨r, ⟨hr, hLS⟩, hy⟩

/-- C5: in the browse flow, a level choice whose subject list is empty ends
the conversation at once with the unavailable outcome (the flow never reaches
the subject-selection state), a level choice with subjects advances to
subject selection, and the subject-selection state never ends the flow — so
the level stage is the only short-circuit point before the nominal terminal
(year) stage. -/
theorem C5_browse_level_short_circuit (db : Store) (c : BrowseCtx) (d : String) :
    (c.state = .level → get_subjects db d = [] →
        browse_step db c d = ({ c with state := .done, level := d }, .unavailableLevel))
    ∧ (c.state = .level → get_subjects db d ≠ [] →
        (browse_step db c d).1.state = .subject)
    ∧ (c.state = .subject → (browse_step db c d).1.state ≠ .done) := by
  refine ⟨?_, ?_, ?_⟩
  · intro hst hempty
    simp [browse_step, hst, hempty]
  · intro hst hne
    simp [browse_step, hst, List.isEmpty_iff, hne]
  · intro hst
    cases hd : d == "back_to_level" <;> simp [browse_step, hst, hd]

/-- C5 witness: on the empty store, choosing "diploma" at the level stage
terminates immediately with the unavailable outcome. -/
theorem C5_witness :
    browse_step init_db ⟨.level, "", ""⟩ "diploma"
      = (⟨.done, "diploma", ""⟩, .unavailableLevel) :=
  (C5_browse_level_short_circuit init_db ⟨.level, "", ""⟩ "diploma").1 rfl (by decide)

/-- C10: at the subject-selection state, a (non-back) subject choice whose
year list is empty still advances the flow to the year-selection state,
presenting a menu holding only the back token — it does not short-circuit the
way the level stage does. -/
theorem C10_empty_years_still_advances (db : Store) (c : BrowseCtx) (d : String)
    (hst : c.state = .subject) (hd : (d == "back_to_level") = false)
    (hy : get_years db c.level d = []) :
    browse_step db c d
      = ({ c with state := .year, subject := d }, .menu ["back_to_subject"]) := by
  simp [browse_step, hst, hd, hy]

/-- C10 witness: with one Math record at level foundation, choosing the
subject "Physics" (which has no years) still advances to the year stage with
a back-only menu. -/
theorem C10_witness :
    browse_step [⟨"foundation", "Math", "2024", "f", "n", 0⟩]
        ⟨.subject, "foundation", ""⟩ "Physics"
      = (⟨.year, "foundation", "Physics"⟩, .menu ["back_to_subject"]) :=
  C10_empty_years_still_advances [⟨"foundation", "Math", "2024", "f", "n", 0⟩]
    ⟨.subject, "foundation", ""⟩ "Physics" rfl (by decide) (by decide)

/-- An event that is not an authorized `/admin` command. -/
def eventAuthFree : Event → Bool
  | .cmdAdmin a => !(is_admin a)
  | _ => true

/-- With no active conversation, any event other than an authorized `/admin`
command leaves the conversation inactive and the store untouched. -/
theorem admin_step_idle (c : AdminCtx) (db : Store) (ev : Event)
    (hst : c.state = .idle) (hev : eventAuthFree ev = true) :
    (admin_step c db ev).1.state = .idle ∧ (admin_step c db ev).2.1 = db := by
  cases ev with
  | cmdAdmin uid =>
      simp only [eventAuthFree] at hev
      rw [Bool.not_eq_true'] at hev
      simp [admin_step, hst, admin_panel, hev]
  | cmdCancel => simp [admin_step, hst]
  | choice d => simp [admin_step, hst]
  | text s => simp [admin_step, hst]
  | doc f n u => simp [admin_step, hst]

/-- Iterated version: a run of events free of authorized `/admin` commands,
starting with no active conversation, never writes the store. -/
theorem admin_run_idle (c : AdminCtx) (db : Store) (evs : List Event)
    (hst : c.state = .idle) (hevs : ∀ ev ∈ evs, eventAuthFree ev = true) :
    (admin_run c db evs).2 = db := by
  induction evs generalizing c db with
  | nil => rfl
  | cons ev evs ih =>
      rw [admin_run]
      have h := admin_step_idle c db ev hst (hevs ev (List.mem_cons_self _ _))
      have h2 := ih (admin_step c db ev).1 (admin_step c db ev).2.1 h.1
        (fun e he => hevs e (List.mem_cons_of_mem _ he))
      exact h2.trans h.2

/-- C2: a `/admin` command from a non-privileged identifier is answered with
the not-authorized outcome and ends the conversation at once (no gated state
is entered), and across any continuation of inputs containing no authorized
`/admin` command the store is never written on that user's behalf. -/
theorem C2_unauthorized_no_write (u : Int) (db : Store) (evs : List Event)
    (hu : is_admin u = false)
    (hevs : ∀ ev ∈ evs, eventAuthFree ev = true) :
    admin_step emptyCtx db (.cmdAdmin u) = (emptyCtx, db, .notAuthorized)
    ∧ (admin_run emptyCtx db (.cmdAdmin u :: evs)).2 = db := by
  constructor
  · simp [admin_step, emptyCtx, admin_panel, hu]
  · rw [admin_run]
    have h := admin_step_idle emptyCtx db (.cmdAdmin u) rfl (by simp [eventAuthFree, hu])
    exact (admin_run_idle _ _ evs h.1 hevs).trans h.2

/-- C2 witness: the non-admin user 1 invokes `/admin` and then supplies the
whole upload input sequence; the store stays empty. -/
theorem C2_witness :
    is_admin 1 = false
    ∧ (admin_run emptyCtx init_db [.cmdAdmin 1, .choice "admin_upload",
        .choice "foundation", .text "Math", .text "2024", .doc "f" "n" 1]).2 = init_db :=
  ⟨by decide,
    (C2_unauthorized_no_write 1 init_db [.choice "admin_upload", .choice "foundation",
      .text "Math", .text "2024", .doc "f" "n" 1] (by decide) (by decide)).2⟩

/-- C6 counterexample: with the upload flow at the document stage, a text
message matches no handler of that state (the stage's message filter admits
only documents), so the step's output is `silent` — the input is not
"rejected with a re-prompt" as claimed; the handler's re-prompt output
`repromptFile` is never emitted for it. -/
theorem C6_counterexample :
    admin_step ⟨.aFile, "admin_upload", "foundation", "Math", "2024", "", ""⟩ init_db
        (.text "hello")
      = (⟨.aFile, "admin_upload", "foundation", "Math", "2024", "", ""⟩, init_db, .silent)
    ∧ AdminOut.silent ≠ AdminOut.repromptFile :=
  ⟨rfl, by decide⟩

/-- C6 amended: at the document stage, any non-document input (text or
callback choice) leaves the flow in the document stage with the accumulated
selections unmutated and the store unwritten, but it is ignored silently
rather than re-prompted, because the stage's filter dispatches only document
messages; the handler's internal re-prompt branch (`admin_get_file` on a
missing document) would re-prompt in place but is unreachable through the
dispatch table. -/
theorem C6_amended_document_stage (c : AdminCtx) (db : Store) (hc : c.state = .aFile) :
    (∀ s, admin_step c db (.text s) = (c, db, .silent))
    ∧ (∀ d, admin_step c db (.choice d) = (c, db, .silent))
    ∧ (∀ uid, admin_get_file none uid c db = (c, db, .repromptFile)) := by
  obtain ⟨st, a1, a2, a3, a4, a5, a6⟩ := c
  cases hc
  exact ⟨fun s => rfl, fun d => rfl, fun uid => rfl⟩

/-- C6 amended witness: concrete document-stage state, text input — the step
keeps the state and selections and emits nothing. -/
theorem C6_amended_witness :
    admin_step ⟨.aFile, "admin_upload", "degree", "Stats", "2022", "", ""⟩ init_db
        (.text "not a file")
      = (⟨.aFile, "admin_upload", "degree", "Stats", "2022", "", ""⟩, init_db, .silent) :=
  (C6_amended_document_stage ⟨.aFile, "admin_upload", "degree", "Stats", "2022", "", ""⟩
    init_db rfl).1 "not a file"

/-- C9 counterexample: a whitespace-only subject input is stripped to the
empty string, accepted without any non-emptiness check, and persisted: the
stored record's subject is `""`, refuting "that value is never the empty
string". -/
theorem C9_counterexample :
    (admin_run emptyCtx init_db
        [.cmdAdmin 7576725871, .choice "admin_upload", .choice "foundation",
         .text "   ", .text "2024", .doc "f" "n" 7576725871]).2
      = [⟨"foundation", "", "2024", "f", "n", 7576725871⟩] := by decide

/-- C9 amended: the subject and year stages record exactly the input with
surrounding whitespace stripped (`str.strip()`), without touching the store —
but with no non-emptiness validation, so a whitespace-only input is recorded
as the empty string. -/
theorem C9_amended_trimmed (c : AdminCtx) (db : Store) (s : String) :
    (c.state = .aSubject →
        admin_step c db (.text s)
          = ({ c with state := .aYear, admin_subject := pyStrip s }, db, .askYear))
    ∧ (c.state = .aYear →
        admin_step c db (.text s)
          = ({ c with state := .aFile, admin_year := pyStrip s }, db, .askFile)) := by
  obtain ⟨st, a1, a2, a3, a4, a5, a6⟩ := c
  constructor <;> intro hst <;> cases hst <;> rfl

/-- C9 witness: the subject stage strips "  Math I " to "Math I" and advances
to the year stage. -/
theorem C9_witness :
    admin_step ⟨.aSubject, "admin_upload", "foundation", "", "", "", ""⟩ init_db
        (.text "  Math I ")
      = (⟨.aYear, "admin_upload", "foundation", "Math I", "", "", ""⟩, init_db, .askYear) := by
  have h := (C9_amended_trimmed ⟨.aSubject, "admin_upload", "foundation", "", "", "", ""⟩
    init_db "  Math I ").1 rfl
  have h2 : pyStrip "  Math I " = "Math I" := by decide
  rw [h2] at h
  exact h

/-- The level tokens every level menu offers (the `callback_data` of the
Foundation/Diploma/Degree buttons). -/
def levelTokens : List String := ["foundation", "diploma", "degree"]

/-- All stored rows carry a menu-token level. -/
def LevelsCanonical (db : Store) : Prop :=
  ∀ r ∈ db, r.level ∈ levelTokens

/-- In the upload stages after level selection, the pending level is a menu
token. -/
def CtxLevelOk (c : AdminCtx) : Prop :=
  (c.state = .aSubject ∨ c.state = .aYear ∨ c.state = .aFile) →
    c.admin_level ∈ levelTokens

theorem ctxLevelOk_not (c : AdminCtx)
    (h : (c.state = AdminState.aSubject ∨ c.state = .aYear ∨ c.state = .aFile) → False) :
    CtxLevelOk c :=
  fun hx => (h hx).elim

/-- The store component of an admin step keeps all levels at menu tokens,
given that the pending upload level is a menu token. -/
theorem levelsCanonical_step (c : AdminCtx) (db : Store) (ev : Event)
    (hdb : LevelsCanonical db) (hc : CtxLevelOk c) :
    LevelsCanonical (admin_step c db ev).2.1 := by
  obtain ⟨st, a1, a2, a3, a4, a5, a6⟩ := c
  cases st <;> cases ev <;> try exact hdb
  case aFile.doc f n u =>
      intro r hr
      simp only [admin_step, admin_get_file, insertOrReplace, List.mem_append,
        List.mem_singleton] at hr
      rcases hr with hr | hr
      · exact hdb r (List.mem_of_mem_filter hr)
      · subst hr
        exact hc (Or.inr (Or.inr rfl))
  case dYear.choice d =>
      simp only [admin_step, delete_select_year]
      split
      · exact hdb
      · exact fun r hr => hdb r (List.mem_of_mem_filter hr)

/-- The conversation-state component of an admin step keeps the pending
upload level at a menu token, provided level-stage choices are menu tokens
(or cancel). -/
theorem ctxLevelOk_step (c : AdminCtx) (db : Store) (ev : Event)
    (hc : CtxLevelOk c)
    (hev : ∀ d, ev = .choice d → c.state = .aLevel →
      d = "admin_cancel" ∨ d ∈ levelTokens) :
    CtxLevelOk (admin_step c db ev).1 := by
  obtain ⟨st, a1, a2, a3, a4, a5, a6⟩ := c
  cases st <;> cases ev <;> try exact hc
  case idle.cmdAdmin uid =>
      simp only [admin_step, admin_panel]
      split
      · exact ctxLevelOk_not _ (fun hx => by rcases hx with hx | hx | hx <;> simp [admin_step, admin_get_file] at hx)
      · exact ctxLevelOk_not _ (fun hx => by rcases hx with hx | hx | hx <;> simp [admin_step, admin_get_file] at hx)
  case action.cmdCancel => exact ctxLevelOk_not _ (fun hx => by rcases hx with hx | hx | hx <;> simp [admin_step, admin_get_file] at hx)
  case action.choice d =>
      simp only [admin_step, admin_action]
      split
      · exact ctxLevelOk_not _ (fun hx => by rcases hx with hx | hx | hx <;> simp [admin_step, admin_get_file] at hx)
      · split
        · exact ctxLevelOk_not _ (fun hx => by rcases hx with hx | hx | hx <;> simp [admin_step, admin_get_file] at hx)
        · split
          · exact ctxLevelOk_not _ (fun hx => by rcases hx with hx | hx | hx <;> simp [admin_step, admin_get_file] at hx)
          · exact ctxLevelOk_not _ (fun hx => by rcases hx with hx | hx | hx <;> simp [admin_step, admin_get_file] at hx)
  case aLevel.cmdCancel => exact ctxLevelOk_not _ (fun hx => by rcases hx with hx | hx | hx <;> simp [admin_step, admin_get_file] at hx)
  case aLevel.choice d =>
      simp only [admin_step, admin_select_level]
      split
      · exact ctxLevelOk_not _ (fun hx => by rcases hx with hx | hx | hx <;> simp [admin_step, admin_get_file] at hx)
      · next h1 =>
          intro hx
          rcases hev d rfl rfl with h2 | h2
          · exact absurd (by simpa using h2 : (d == "admin_cancel") = true) h1
          · exact h2
  case aSubject.cmdCancel => exact ctxLevelOk_not _ (fun hx => by rcases hx with hx | hx | hx <;> simp [admin_step, admin_get_file] at hx)
  case aSubject.text s => exact fun hx => hc (Or.inl rfl)
  case aYear.cmdCancel => exact ctxLevelOk_not _ (fun hx => by rcases hx with hx | hx | hx <;> simp [admin_step, admin_get_file] at hx)
  case aYear.text s => exact fun hx => hc (Or.inr (Or.inl rfl))
  case aFile.cmdCancel => exact ctxLevelOk_not _ (fun hx => by rcases hx with hx | hx | hx <;> simp [admin_step, admin_get_file] at hx)
  case aFile.doc f n u => exact ctxLevelOk_not _ (fun hx => by rcases hx with hx | hx | hx <;> simp [admin_step, admin_get_file] at hx)
  case dLevel.cmdCancel => exact ctxLevelOk_not _ (fun hx => by rcases hx with hx | hx | hx <;> simp [admin_step, admin_get_file] at hx)
  case dLevel.choice d =>
      simp only [admin_step, delete_select_level]
      split
      · exact ctxLevelOk_not _ (fun hx => by rcases hx with hx | hx | hx <;> simp [admin_step, admin_get_file] at hx)
      · split
        · exact ctxLevelOk_not _ (fun hx => by rcases hx with hx | hx | hx <;> simp [admin_step, admin_get_file] at hx)
        · exact ctxLevelOk_not _ (fun hx => by rcases hx with hx | hx | hx <;> simp [admin_step, admin_get_file] at hx)
  case dSubject.cmdCancel => exact ctxLevelOk_not _ (fun hx => by rcases hx with hx | hx | hx <;> simp [admin_step, admin_get_file] at hx)
  case dSubject.choice d =>
      simp only [admin_step, delete_select_subject]
      split
      · exact ctxLevelOk_not _ (fun hx => by rcases hx with hx | hx | hx <;> simp [admin_step, admin_get_file] at hx)
      · exact ctxLevelOk_not _ (fun hx => by rcases hx with hx | hx | hx <;> simp [admin_step, admin_get_file] at hx)
  case dYear.cmdCancel => exact ctxLevelOk_not _ (fun hx => by rcases hx with hx | hx | hx <;> simp [admin_step, admin_get_file] at hx)
  case dYear.choice d =>
      simp only [admin_step, delete_select_year]
      split
      · exact ctxLevelOk_not _ (fun hx => by rcases hx with hx | hx | hx <;> simp [admin_step, admin_get_file] at hx)
      · exact ctxLevelOk_not _ (fun hx => by rcases hx with hx | hx | hx <;> simp [admin_step, admin_get_file] at hx)

/-- The level stage stores the chosen token verbatim: no canonicalization. -/
theorem admin_level_verbatim (c : AdminCtx) (db : Store) (ev : Event) :
    ∀ d, ev = .choice d → c.state = .aLevel → (d == "admin_cancel") = false →
      (admin_step c db ev).1.admin_level = d := by
  obtain ⟨st, a1, a2, a3, a4, a5, a6⟩ := c
  intro d hd hst hdc
  cases ev <;> cases hd
  cases st <;> cases hst
  simp [admin_step, admin_select_level, hdc]

/-- C7 counterexample: the level choice token is stored verbatim, with no
case-insensitive acceptance and no canonicalization: uploading with token
"foundation" and then with token "Foundation" (the same word, differently
cased) yields two coexisting records that differ only in the casing of their
level — and "Foundation" is not one of the (lowercase) menu tokens. -/
theorem C7_counterexample :
    (admin_run emptyCtx init_db
        [.cmdAdmin 7576725871, .choice "admin_upload", .choice "foundation",
         .text "Math", .text "2024", .doc "f1" "n1" 7576725871,
         .cmdAdmin 7576725871, .choice "admin_upload", .choice "Foundation",
         .text "Math", .text "2024", .doc "f2" "n2" 7576725871]).2
      = [⟨"foundation", "Math", "2024", "f1", "n1", 7576725871⟩,
         ⟨"Foundation", "Math", "2024", "f2", "n2", 7576725871⟩]
    ∧ ("Foundation" : String) ∉ levelTokens
    ∧ ("Foundation" : String).data.map Char.toLower
        = ("foundation" : String).data.map Char.toLower
    ∧ ("Foundation" : String) ≠ "foundation" :=
  ⟨by decide, by decide, by decide, by decide⟩

/-- C7 amended: the level stage stores the chosen token verbatim — there is
no case normalization on storage; consequently the invariant "every stored
level is a (lowercase) menu token, and the pending upload level likewise" is
preserved by each step of the admin machine only under the proviso that every
level-stage choice is a menu token or cancel; arbitrary choice tokens
(including other casings of a menu word) would be stored unchanged. -/
theorem C7_amended_level_tokens (c : AdminCtx) (db : Store) (ev : Event)
    (hdb : LevelsCanonical db) (hc : CtxLevelOk c)
    (hev : ∀ d, ev = .choice d → c.state = .aLevel →
      d = "admin_cancel" ∨ d ∈ levelTokens) :
    LevelsCanonical (admin_step c db ev).2.1
    ∧ CtxLevelOk (admin_step c db ev).1
    ∧ (∀ d, ev = .choice d → c.state = .aLevel → (d == "admin_cancel") = false →
        (admin_step c db ev).1.admin_level = d) :=
  ⟨levelsCanonical_step c db ev hdb hc, ctxLevelOk_step c db ev hc hev,
    admin_level_verbatim c db ev⟩

/-- C7 witness: at the level stage, the menu token "foundation" is accepted
and stored verbatim, and the invariant is maintained. -/
theorem C7_witness :
    LevelsCanonical (admin_step ⟨.aLevel, "admin_upload", "", "", "", "", ""⟩ init_db
        (.choice "foundation")).2.1
    ∧ CtxLevelOk (admin_step ⟨.aLevel, "admin_upload", "", "", "", "", ""⟩ init_db
        (.choice "foundation")).1
    ∧ (admin_step ⟨.aLevel, "admin_upload", "", "", "", "", ""⟩ init_db
        (.choice "foundation")).1.admin_level = "foundation" := by
  have h := C7_amended_level_tokens ⟨.aLevel, "admin_upload", "", "", "", "", ""⟩ init_db
    (.choice "foundation") (by intro r hr; cases hr)
    (by intro hx; rcases hx with hx | hx | hx <;> cases hx)
    (by intro d hd hst; cases hd; exact Or.inr (by decide))
  exact ⟨h.1, h.2.1, h.2.2 "foundation" rfl rfl (by decide)⟩
